import Mathlib

/-!
Shallow embedding of the dependency-security remediation subsystem of
GlossiaApp (scripts/security/dependency-manager.mjs,
scripts/security/aikido-branch-manager.mjs,
scripts/security/interactive-aikido-manager.mjs).

External process execution (execSync) is modelled by an explicit
behaviour value: a process either exits with a code and captured stdout,
or fails to launch.  execSync throws whenever the exit code is non-zero
or the launch fails; the captured stdout of a throwing call is not
returned to the caller (the source reads only error.message).
JSON parsing is modelled by an abstract parse function returning an
Option.  Filesystem writes and package installs are modelled as an
explicit effect list.
-/

namespace Glossia

/-! JavaScript-style helpers.  A JS string is falsy exactly when it is
empty; an absent (undefined/null) field is falsy. -/

/-- Truthiness of an optional JS string: present and non-empty. -/
def jsTruthy : Option String → Bool
  | some s => s ≠ ""
  | none => false

/-- JS expression o or-else d for string o: the default is used when o is
absent or empty. -/
def jsOr (o : Option String) (d : String) : String :=
  match o with
  | some s => if s = "" then d else s
  | none => d

/-- JS expression o or-else d for a numeric field: 0 is falsy in JS. -/
def jsOrNat (o : Option Nat) (d : Nat) : Nat :=
  match o with
  | some n => if n = 0 then d else n
  | none => d

/-- String interpolation of a possibly-absent JS value: an undefined value
prints as the text undefined. -/
def jsStr (o : Option String) : String :=
  o.getD "undefined"

/-- JS String.prototype.includes: substring containment. -/
def jsIncludes (s pat : String) : Bool :=
  decide (pat.toList <:+: s.toList)

/-- Lookup in a JS-object modelled as an association list (first match). -/
def assocLookup (k : String) : List (String × String) → Option String
  | [] => none
  | (k', v) :: rest => if k' = k then some v else assocLookup k rest

/-- JS property assignment on an object modelled as an association list:
replace the first binding of the key, or append when absent. -/
def assocSet (k v : String) : List (String × String) → List (String × String)
  | [] => [(k, v)]
  | (k', v') :: rest => if k' = k then (k, v) :: rest else (k', v') :: assocSet k v rest

/-- Lookup through an optional object (an absent dependency map has no
entries). -/
def optLookup (q : String) : Option (List (String × String)) → Option String
  | some m => assocLookup q m
  | none => none

/-! Configuration: SECURITY_CONFIG from dependency-manager.mjs lines 59-69.
The maxAge table is kept as a fixed lookup function; the auto-update
severity allow-list and the package exclusion list are the two list-valued
fields the orchestrator consults. -/

structure SecurityConfig where
  autoUpdateLevels : List String
  excludePackages : List String
deriving DecidableEq

/-- The configuration constant of the source: allow-list critical and
high, empty exclusion list. -/
def SECURITY_CONFIG : SecurityConfig :=
  { autoUpdateLevels := ["critical", "high"], excludePackages := [] }

/-- SECURITY_CONFIG.maxAge lookup: the SLA ceiling in days per severity;
absent keys yield none (the source then falls back to the low ceiling). -/
def maxAgeFor (s : String) : Option Int :=
  if s = "critical" then some 7
  else if s = "high" then some 30
  else if s = "moderate" then some 90
  else if s = "low" then some 365
  else none

/-! Vulnerability records as consumed from parsed npm-audit JSON.
created is the published timestamp in milliseconds (none when the field
is absent or falsy, in which case the source uses the current time). -/

structure VulnData where
  id : String
  severity : Option String
  created : Option Int
  title : Option String
  module_name : Option String
  vulnerable_versions : Option String
  patched_versions : Option String
  url : Option String
  via : Option String
deriving DecidableEq

/-- Result of analyzeVulnerability (dependency-manager.mjs lines 231-253). -/
structure VulnAnalysis where
  id : String
  severity : String
  ageInDays : Int
  maxAge : Int
  isStale : Bool
  shouldAutoUpdate : Bool
  title : String
  module : String
  versions : String
  patched : String
  url : Option String
deriving DecidableEq

/-- analyzeVulnerability: severity defaults to unknown, age in whole days
(Math.floor of a millisecond difference, i.e. floor division), SLA ceiling
from the maxAge table with the low ceiling as fallback, staleness is
strict excess over the ceiling, auto-eligibility is membership of the
severity in the configured allow-list. -/
def analyzeVulnerability (cfg : SecurityConfig) (now : Int) (vulnId : String)
    (v : VulnData) : VulnAnalysis :=
  let severity := jsOr v.severity "unknown"
  let publishedDate := v.created.getD now
  let ageInDays := Int.fdiv (now - publishedDate) 86400000
  let maxAge := (maxAgeFor severity).getD 365
  { id := vulnId
    severity := severity
    ageInDays := ageInDays
    maxAge := maxAge
    isStale := decide (ageInDays > maxAge)
    shouldAutoUpdate := cfg.autoUpdateLevels.contains severity
    title := jsOr v.title "Unknown vulnerability"
    module := jsOr v.module_name "unknown"
    versions := jsOr v.vulnerable_versions "unknown"
    patched := jsOr v.patched_versions "none"
    url := v.url }

/-- The per-severity deduction of calculateSecurityScore's switch
(dependency-manager.mjs lines 264-269); severities outside the four known
levels fall through the switch with no deduction. -/
def severityWeight (s : String) : Int :=
  if s = "critical" then 25
  else if s = "high" then 15
  else if s = "moderate" then 8
  else if s = "low" then 3
  else 0

/-- The total deduction one vulnerability contributes inside
calculateSecurityScore's forEach body: the severity weight plus an extra
10 when the analysis marks it stale.  The source calls
analyzeVulnerability with the global SECURITY_CONFIG. -/
def vulnDeduction (now : Int) (v : VulnData) : Int :=
  severityWeight (analyzeVulnerability SECURITY_CONFIG now v.id v).severity
    + (if (analyzeVulnerability SECURITY_CONFIG now v.id v).isStale then 10 else 0)

/-- npm-outdated entry for one package. -/
structure OutdatedInfo where
  current : Option String
  wanted : Option String
  latest : Option String
deriving DecidableEq

/-- calculateSecurityScore (dependency-manager.mjs lines 258-282): start
from 100, subtract every vulnerability deduction (the forEach accumulation
is a sum over Object.values), subtract min(2 times the outdated count, 30),
then Math.max(0, Math.round(score)); the running score is always an
integer, so the rounding is the identity. -/
def calculateSecurityScore (now : Int) (vulns : List (String × VulnData))
    (outdated : List (String × OutdatedInfo)) : Int :=
  let deductions := ((vulns.map Prod.snd).map (vulnDeduction now)).sum
  let outdatedPenalty := min ((outdated.length : Int) * 2) 30
  max 0 (100 - deductions - outdatedPenalty)

/-! Command Runner boundary (execCommand, dependency-manager.mjs lines
138-149).  execSync throws when the spawned process exits non-zero or
cannot be launched; execCommand catches and reports failure with only the
error message, discarding any captured stdout. -/

inductive ProcBehavior where
  | exits (code : Nat) (stdout : String)
  | launchFailure (msg : String)
deriving DecidableEq

structure ExecResult where
  success : Bool
  output : Option String
  error : Option String
deriving DecidableEq

/-- execCommand: success exactly when the process exits with code 0; in
every other case the output is lost and only an error message remains. -/
def execCommand (proc : ProcBehavior) : ExecResult :=
  match proc with
  | .exits code out =>
    if code = 0 then { success := true, output := some out, error := none }
    else { success := false, output := none, error := some "Command failed" }
  | .launchFailure msg => { success := false, output := none, error := some msg }

/-- Parsed npm-audit JSON document. -/
structure AuditData where
  vulnerabilities : List (String × VulnData)
  metadata : Option String
  auditReportVersion : Option Nat
deriving DecidableEq

/-- Return value of scanVulnerabilities. -/
structure ScanResult where
  vulnerabilities : List (String × VulnData)
  summary : Option String
  auditLevel : Option Nat
deriving DecidableEq

/-- scanVulnerabilities (dependency-manager.mjs lines 185-207): run the
audit command through execCommand; on failure warn and return the empty
set; otherwise parse the captured stdout (JSON.parse modelled by the
abstract parse function), returning the empty set when parsing fails.
The function always returns a value and never propagates an exception. -/
def scanVulnerabilities (parse : String → Option AuditData)
    (proc : ProcBehavior) : ScanResult :=
  let result := execCommand proc
  if result.success then
    match result.output with
    | some out =>
      match parse out with
      | some auditData =>
        { vulnerabilities := auditData.vulnerabilities
          summary := auditData.metadata
          auditLevel := some (jsOrNat auditData.auditReportVersion 1) }
      | none => { vulnerabilities := [], summary := none, auditLevel := none }
    | none => { vulnerabilities := [], summary := none, auditLevel := none }
  else { vulnerabilities := [], summary := none, auditLevel := none }

/-! Update Orchestrator: plan entries, manifest mutation and effects. -/

/-- One entry of the update plan built by updateDependencies; security
entries carry severity and patched range, outdated entries carry the
current, wanted and latest versions. -/
structure Update where
  type : String
  package : String
  severity : Option String
  current : Option String
  patched : Option String
  wanted : Option String
  latest : Option String
  reason : String
deriving DecidableEq

/-- In-memory manifest content: the dependency and dev-dependency maps,
each possibly absent as in a raw package.json object. -/
structure PkgContent where
  dependencies : Option (List (String × String))
  devDependencies : Option (List (String × String))
deriving DecidableEq

/-- Observable filesystem and process effects of the orchestrator. -/
inductive Effect where
  | fileWrite (path : String)
  | npmInstall (dir : String)
  | dryWouldWrite (path : String)
  | dryWouldInstall (dir : String)
deriving DecidableEq

/-- An effect that actually mutates the filesystem or runs an install;
the dry-run log entries do not. -/
def mutatesSystem : Effect → Bool
  | .fileWrite _ => true
  | .npmInstall _ => true
  | _ => false

/-- writePackageJson (dependency-manager.mjs lines 166-180): in dry-run
mode only a would-update line is logged and true is returned; otherwise
the file is written.  The write itself is modelled as reliable. -/
def writePackageJson (dry : Bool) (filePath : String) : Bool × List Effect :=
  if dry then (true, [Effect.dryWouldWrite filePath])
  else (true, [Effect.fileWrite filePath])

/-- The JS truthiness guard pkg-map and pkg-map of the package: the map
exists and holds a non-empty constraint for the package. -/
def depsHasTruthy (d : Option (List (String × String))) (k : String) : Bool :=
  match d with
  | some m => jsTruthy (assocLookup k m)
  | none => false

/-- Assignment into a possibly-absent dependency map. -/
def setDep (d : Option (List (String × String))) (k v : String) :
    Option (List (String × String)) :=
  d.map (assocSet k v)

/-- The body of applyUpdates's for-loop (dependency-manager.mjs lines
514-550) for one plan entry, threading the manifest content and the
hasChanges flag.  A security entry with a truthy patched range other than
the literal none writes the patched range into both maps where the package
is present; an outdated entry with a truthy latest version writes
caret-latest — the source computes targetVersion as wanted or-else latest
on line 534 but never uses it, writing caret-latest on lines 538 and 545. -/
def applyOne (u : Update) (st : PkgContent × Bool) : PkgContent × Bool :=
  let p := st.1
  let hasChanges := st.2
  if u.type == "security" && jsTruthy u.patched && !(u.patched == some "none") then
    let targetVersion := u.patched.getD ""
    let step1 :=
      if depsHasTruthy p.dependencies u.package then
        ({ p with dependencies := setDep p.dependencies u.package targetVersion }, true)
      else (p, hasChanges)
    if depsHasTruthy step1.1.devDependencies u.package then
      ({ step1.1 with
          devDependencies := setDep step1.1.devDependencies u.package targetVersion },
        true)
    else step1
  else if u.type == "outdated" && jsTruthy u.latest then
    let _targetVersion := jsOr u.wanted (u.latest.getD "")
    let newConstraint := "^" ++ u.latest.getD ""
    let step1 :=
      if depsHasTruthy p.dependencies u.package then
        ({ p with dependencies := setDep p.dependencies u.package newConstraint }, true)
      else (p, hasChanges)
    if depsHasTruthy step1.1.devDependencies u.package then
      ({ step1.1 with
          devDependencies := setDep step1.1.devDependencies u.package newConstraint },
        true)
    else step1
  else (p, hasChanges)

/-- applyUpdates (dependency-manager.mjs lines 503-580): an empty plan
returns true immediately; a missing manifest returns false; otherwise the
loop applies each entry in order, and when any change was recorded the
manifest is written (writePackageJson handles dry-run) and, outside
dry-run, npm install runs — a failed install returns false.  The result
carries the success flag, the final in-memory content and the effect
trace. -/
def applyUpdates (dry installOk : Bool) (packageDir : String)
    (pkg : Option PkgContent) (updates : List Update) :
    Bool × Option PkgContent × List Effect :=
  if updates.length = 0 then (true, pkg, [])
  else
    match pkg with
    | none => (false, none, [])
    | some p =>
      let folded := updates.foldl (fun st u => applyOne u st) (p, false)
      if !folded.2 then (true, some folded.1, [])
      else
        let w := writePackageJson dry (packageDir ++ "/package.json")
        if !w.1 then (false, some folded.1, w.2)
        else if dry then
          (true, some folded.1, w.2 ++ [Effect.dryWouldInstall packageDir])
        else if installOk then
          (true, some folded.1, w.2 ++ [Effect.npmInstall packageDir])
        else
          (false, some folded.1, w.2 ++ [Effect.npmInstall packageDir])

/-- The plan-building half of updateDependencies (dependency-manager.mjs
lines 369-408).  Security entries: skipped in auto mode when not
auto-eligible, always skipped when the module is excluded.  Outdated
entries: skipped entirely in auto mode. -/
def buildUpdates (cfg : SecurityConfig) (now : Int) (mode : String)
    (vulns : List (String × VulnData)) (outdated : List (String × OutdatedInfo)) :
    List Update :=
  let securityUpdates := vulns.filterMap (fun vp =>
    let analysis := analyzeVulnerability cfg now vp.1 vp.2
    if mode = "auto" && !analysis.shouldAutoUpdate then none
    else if cfg.excludePackages.contains analysis.module then none
    else some
      { type := "security"
        package := analysis.module
        severity := some analysis.severity
        current := some (jsOr vp.2.via "unknown")
        patched := some analysis.patched
        wanted := none
        latest := none
        reason := analysis.severity ++ " vulnerability: " ++ analysis.title })
  let outdatedUpdates := outdated.filterMap (fun op =>
    if mode = "auto" then none
    else some
      { type := "outdated"
        package := op.1
        severity := none
        current := op.2.current
        patched := none
        wanted := op.2.wanted
        latest := op.2.latest
        reason := "Outdated package (current: " ++ jsStr op.2.current
          ++ ", latest: " ++ jsStr op.2.latest ++ ")" })
  securityUpdates ++ outdatedUpdates

/-- interactiveUpdate's selection loop (dependency-manager.mjs lines
477-489): answers are consumed one per entry; q stops, y selects,
anything else skips. -/
def selectUpdates : List Update → List String → List Update
  | [], _ => []
  | _ :: _, [] => []
  | u :: us, a :: rest =>
    if a = "q" then []
    else if a = "y" then u :: selectUpdates us rest
    else selectUpdates us rest

/-- interactiveUpdate (dependency-manager.mjs lines 472-498). -/
def interactiveUpdate (dry installOk : Bool) (dir : String)
    (pkg : Option PkgContent) (updates : List Update) (answers : List String) :
    Bool × Option PkgContent × List Effect :=
  let sel := selectUpdates updates answers
  if sel.length > 0 then applyUpdates dry installOk dir pkg sel
  else (true, pkg, [])

/-- updateDependencies (dependency-manager.mjs lines 360-467): missing
manifest fails; an empty plan succeeds with no effects; auto mode applies
the security-typed entries of the plan; force mode applies everything;
interactive mode dispatches on the operator choice (all, security-only,
per-entry selection, or skip).  The mode string stands in for the CLI
flags that determine it in main. -/
def updateDependencies (cfg : SecurityConfig) (now : Int) (dry installOk : Bool)
    (packageDir : String) (pkg : Option PkgContent)
    (vulns : List (String × VulnData)) (outdated : List (String × OutdatedInfo))
    (mode : String) (choice : String) (answers : List String) :
    Bool × Option PkgContent × List Effect :=
  match pkg with
  | none => (false, none, [])
  | some p =>
    let updates := buildUpdates cfg now mode vulns outdated
    if updates.length = 0 then (true, some p, [])
    else if mode = "auto" then
      applyUpdates dry installOk packageDir (some p)
        (updates.filter (fun u => u.type == "security"))
    else if mode = "force" then
      applyUpdates dry installOk packageDir (some p) updates
    else
      if choice = "a" then applyUpdates dry installOk packageDir (some p) updates
      else if choice = "s" then
        applyUpdates dry installOk packageDir (some p)
          (updates.filter (fun u => u.type == "security"))
      else if choice = "i" then
        interactiveUpdate dry installOk packageDir (some p) updates answers
      else (true, some p, [])

/-! Branch Lifecycle Manager. -/

/-- Git repository state visible to the merge workflow: the checked-out
branch, the working tree files, and whether a merge is in progress. -/
structure GitState where
  currentBranch : String
  workingTree : List (String × String)
  mergeInProgress : Bool
deriving DecidableEq

/-- Outcome of git merge for the candidate branch against the current
state.  Modelled git semantics: a clean merge replaces the working tree
with the merged tree and the command exits 0; a conflicting merge exits
non-zero (execSync throws) and leaves the conflicted, partially merged
tree in place with the merge still in progress until an explicit
git merge abort. -/
inductive MergeOutcome where
  | clean (newTree : List (String × String))
  | conflict (conflictedTree : List (String × String))
deriving DecidableEq

/-- External command results the merge workflow depends on. -/
structure GitWorld where
  mergeOutcome : MergeOutcome
  pullOk : Bool
  deleteOk : Bool
deriving DecidableEq

/-- mergeAikidoBranch (aikido-branch-manager.mjs lines 152-205) with the
three interactive answers as parameters.  Off the main and develop
branches, a y answer switches to main (checkout plus pull; a failure there
returns false).  A non-y confirmation cancels.  The merge is then
attempted: on success the merged tree is installed and the optional local
branch deletion does not affect the tree; on a conflicting merge the
source catches the thrown error, prints that conflicts must be resolved
manually, and returns false — it never issues a merge abort, so the
conflicted tree and the in-progress merge remain. -/
def mergeAikidoBranch (w : GitWorld) (ansSwitch ansConfirm ansDelete : String)
    (branchName : String) (st : GitState) : Bool × GitState :=
  let step1 : Option GitState :=
    if st.currentBranch != "main" && st.currentBranch != "develop" then
      if ansSwitch = "y" then
        if w.pullOk then some { st with currentBranch := "main" } else none
      else some st
    else some st
  match step1 with
  | none => (false, st)
  | some st1 =>
    if ansConfirm != "y" then (false, st1)
    else
      match w.mergeOutcome with
      | .clean t =>
        let _ := ansDelete
        let _ := branchName
        (true, { st1 with workingTree := t })
      | .conflict t =>
        (false, { st1 with workingTree := t, mergeInProgress := true })

/-- The branch categorization of listSecurityBranches
(aikido-branch-manager.mjs lines 67-71): three independent substring
filters over the discovered branch names — the scanner-bot (aikido) list,
the dependency-bot (dependabot) list, and the remainder. -/
def categorizeBranches (branches : List String) :
    List String × List String × List String :=
  (branches.filter (fun b => jsIncludes b "aikido"),
   branches.filter (fun b => jsIncludes b "dependabot"),
   branches.filter (fun b => !(jsIncludes b "aikido") && !(jsIncludes b "dependabot")))

/-- The branch typing of loadSecurityBranches
(interactive-aikido-manager.mjs lines 111-116): a cascaded conditional
with scanner-bot (aikido) precedence over dependency-bot (dependabot),
falling back to the security type. -/
def branchType (name : String) : String :=
  if jsIncludes name "aikido/" then "aikido"
  else if jsIncludes name "dependabot/" then "dependabot"
  else "security"

/-! Concrete sample data used by the closed evaluation theorems and the
witnesses. -/

/-- A high-severity vulnerability record as parsed from audit output. -/
def sampleVuln : VulnData :=
  { id := "GHSA-1234"
    severity := some "high"
    created := some 0
    title := some "Prototype pollution"
    module_name := some "lodash"
    vulnerable_versions := some "<4.17.21"
    patched_versions := some ">=4.17.21"
    url := none
    via := none }

/-- A parsed audit document reporting one vulnerability. -/
def sampleAudit : AuditData :=
  { vulnerabilities := [("lodash", sampleVuln)]
    metadata := some "metadata"
    auditReportVersion := some 2 }

/-- A parse function recognising exactly the sample audit stdout. -/
def sampleParse : String → Option AuditData :=
  fun s => if s = "audit-json-with-findings" then some sampleAudit else none

/-- A vulnerability whose severity is outside the four known levels. -/
def unknownVuln : VulnData :=
  { id := "V-1"
    severity := some "weird"
    created := some 0
    title := none
    module_name := some "pkgx"
    vulnerable_versions := none
    patched_versions := none
    url := none
    via := none }

/-- A manifest whose lodash constraint already equals the patched range
of noopUpdate. -/
def noopPkg : PkgContent :=
  { dependencies := some [("lodash", "4.17.21")], devDependencies := none }

/-- A security plan entry whose target version equals the current
constraint recorded in noopPkg. -/
def noopUpdate : Update :=
  { type := "security"
    package := "lodash"
    severity := some "critical"
    current := some "unknown"
    patched := some "4.17.21"
    wanted := none
    latest := none
    reason := "critical vulnerability: test" }

/-- npm-outdated data where the wanted version differs from latest. -/
def outdatedInfoSample : OutdatedInfo :=
  { current := some "1.0.0", wanted := some "1.2.4", latest := some "2.0.0" }

/-- A manifest holding the outdated package at its current version. -/
def outdatedPkg : PkgContent :=
  { dependencies := some [("axios", "1.0.0")], devDependencies := none }

/-- A git world in which the attempted merge conflicts. -/
def conflictWorld : GitWorld :=
  { mergeOutcome := MergeOutcome.conflict [("package.json", "conflict-markers")]
    pullOk := true
    deleteOk := true }

/-- The repository state before the merge attempt: on main, clean tree. -/
def initialGit : GitState :=
  { currentBranch := "main"
    workingTree := [("package.json", "clean-content")]
    mergeInProgress := false }

/-! Helper lemmas. -/

theorem severityWeight_nonneg (s : String) : 0 ≤ severityWeight s := by
  unfold severityWeight
  split_ifs <;> norm_num

theorem vulnDeduction_nonneg (now : Int) (v : VulnData) : 0 ≤ vulnDeduction now v := by
  unfold vulnDeduction
  have h1 := severityWeight_nonneg (analyzeVulnerability SECURITY_CONFIG now v.id v).severity
  split_ifs <;> omega

theorem assocLookup_assocSet_ne (q k v : String) (m : List (String × String))
    (h : q ≠ k) : assocLookup q (assocSet k v m) = assocLookup q m := by
  induction m with
  | nil =>
    simp only [assocSet, assocLookup]
    rw [if_neg (Ne.symm h)]
  | cons hd tl ih =>
    obtain ⟨k', v'⟩ := hd
    simp only [assocSet]
    by_cases hk : k' = k
    · rw [if_pos hk]
      subst hk
      simp only [assocLookup]
      rw [if_neg (Ne.symm h), if_neg (Ne.symm h)]
    · rw [if_neg hk]
      simp only [assocLookup]
      by_cases hq : k' = q
      · rw [if_pos hq, if_pos hq]
      · rw [if_neg hq, if_neg hq]
        exact ih

theorem assocSet_lookup_self (k v : String) (m : List (String × String))
    (h : assocLookup k m = some v) : assocSet k v m = m := by
  induction m with
  | nil => simp [assocLookup] at h
  | cons hd tl ih =>
    obtain ⟨k', v'⟩ := hd
    simp only [assocLookup] at h
    by_cases hk : k' = k
    · subst hk
      rw [if_pos rfl] at h
      injection h with hv
      subst hv
      simp [assocSet]
    · rw [if_neg hk] at h
      simp only [assocSet, if_neg hk]
      rw [ih h]

theorem optLookup_setDep_ne (q k v : String) (d : Option (List (String × String)))
    (h : q ≠ k) : optLookup q (setDep d k v) = optLookup q d := by
  cases d with
  | none => rfl
  | some m => simp [optLookup, setDep, assocLookup_assocSet_ne q k v m h]

theorem applyOne_frame (u : Update) (q : String) (h : q ≠ u.package)
    (st : PkgContent × Bool) :
    optLookup q (applyOne u st).1.dependencies = optLookup q st.1.dependencies
    ∧ optLookup q (applyOne u st).1.devDependencies = optLookup q st.1.devDependencies := by
  obtain ⟨p, hc⟩ := st
  unfold applyOne
  by_cases c1 : (u.type == "security" && jsTruthy u.patched
      && !(u.patched == some "none")) = true <;>
  by_cases c1' : (u.type == "outdated" && jsTruthy u.latest) = true <;>
  by_cases c2 : depsHasTruthy p.dependencies u.package = true <;>
  by_cases c3 : depsHasTruthy p.devDependencies u.package = true <;>
    simp [c1, c1', c2, c3, optLookup_setDep_ne _ _ _ _ h]

theorem foldl_applyOne_frame (q : String) (updates : List Update)
    (h : ∀ u ∈ updates, u.package ≠ q) (st : PkgContent × Bool) :
    optLookup q (updates.foldl (fun st u => applyOne u st) st).1.dependencies
        = optLookup q st.1.dependencies
    ∧ optLookup q (updates.foldl (fun st u => applyOne u st) st).1.devDependencies
        = optLookup q st.1.devDependencies := by
  induction updates generalizing st with
  | nil => exact ⟨rfl, rfl⟩
  | cons u us ih =>
    have hu : q ≠ u.package := Ne.symm (h u (List.mem_cons_self u us))
    have hrest : ∀ x ∈ us, x.package ≠ q := fun x hx => h x (List.mem_cons_of_mem u hx)
    simp only [List.foldl_cons]
    have h1 := applyOne_frame u q hu (st.1, st.2)
    have h2 := ih hrest (applyOne u (st.1, st.2))
    exact ⟨h2.1.trans h1.1, h2.2.trans h1.2⟩

theorem applyUpdates_frame (dry installOk : Bool) (dir : String) (p : PkgContent)
    (updates : List Update) (q : String) (h : ∀ u ∈ updates, u.package ≠ q) :
    ∃ p', (applyUpdates dry installOk dir (some p) updates).2.1 = some p'
      ∧ optLookup q p'.dependencies = optLookup q p.dependencies
      ∧ optLookup q p'.devDependencies = optLookup q p.devDependencies := by
  by_cases h0 : updates.length = 0
  · exact ⟨p, by simp [applyUpdates, h0], rfl, rfl⟩
  · obtain ⟨hd, hv⟩ := foldl_applyOne_frame q updates h (p, false)
    refine ⟨(updates.foldl (fun st u => applyOne u st) (p, false)).1, ?_, hd, hv⟩
    unfold applyUpdates
    rw [if_neg h0]
    by_cases hcg : (updates.foldl (fun st u => applyOne u st) (p, false)).2 = true
    · simp only [hcg, writePackageJson]
      cases dry <;> cases installOk <;> simp
    · simp [hcg]

/-! Claim theorems. -/

/-- C2: calculateSecurityScore always lies in the interval 0 to 100, and
the all-zero input (no vulnerabilities, no outdated packages) yields
exactly 100. -/
theorem score_in_range_and_perfect_on_empty (now : Int)
    (vulns : List (String × VulnData)) (outdated : List (String × OutdatedInfo)) :
    (0 ≤ calculateSecurityScore now vulns outdated
      ∧ calculateSecurityScore now vulns outdated ≤ 100)
    ∧ calculateSecurityScore now [] [] = 100 := by
  constructor
  · unfold calculateSecurityScore
    have hd : 0 ≤ ((vulns.map Prod.snd).map (vulnDeduction now)).sum := by
      apply List.sum_nonneg
      intro x hx
      obtain ⟨v, _, rfl⟩ := List.mem_map.mp hx
      exact vulnDeduction_nonneg now v
    have hp1 : 0 ≤ min ((outdated.length : Int) * 2) 30 :=
      le_min (by positivity) (by norm_num)
    have hp2 : min ((outdated.length : Int) * 2) 30 ≤ 30 := min_le_right _ _
    refine ⟨le_max_left _ _, ?_⟩
    apply max_le (by norm_num)
    omega
  · rfl

/-- C9: adding one more vulnerability, of any severity and at any
position, never increases calculateSecurityScore. -/
theorem score_monotone_in_vulnerabilities (now : Int) (pv : String × VulnData)
    (l1 l2 : List (String × VulnData)) (outdated : List (String × OutdatedInfo)) :
    calculateSecurityScore now (l1 ++ pv :: l2) outdated
      ≤ calculateSecurityScore now (l1 ++ l2) outdated := by
  unfold calculateSecurityScore
  have hd := vulnDeduction_nonneg now pv.2
  simp only [List.map_append, List.map_cons, List.sum_append, List.sum_cons]
  apply max_le_max (le_refl 0)
  omega

/-- C1 (code bug): when the audit process exits non-zero with parseable
JSON on stdout — the expected npm-audit behaviour when vulnerabilities
exist — scanVulnerabilities discards the output and returns the empty
vulnerability set, because execCommand's execSync call throws on any
non-zero exit; the very same stdout is parsed successfully when the exit
code is 0. -/
theorem audit_nonzero_exit_discards_output :
    scanVulnerabilities sampleParse (ProcBehavior.exits 1 "audit-json-with-findings")
      = { vulnerabilities := [], summary := none, auditLevel := none }
    ∧ sampleParse "audit-json-with-findings" = some sampleAudit
    ∧ sampleAudit.vulnerabilities ≠ []
    ∧ scanVulnerabilities sampleParse (ProcBehavior.exits 0 "audit-json-with-findings")
      = { vulnerabilities := [("lodash", sampleVuln)]
          summary := some "metadata"
          auditLevel := some 2 } := by
  refine ⟨rfl, rfl, by decide, rfl⟩

/-- C8 (code bug): the plan entry for an outdated package records wanted
1.2.4 and latest 2.0.0, yet applying it writes caret-2.0.0 — the source
computes targetVersion as wanted-or-latest and then ignores it, always
writing caret-latest. -/
theorem outdated_update_ignores_wanted :
    buildUpdates SECURITY_CONFIG 0 "interactive" [] [("axios", outdatedInfoSample)]
      = [{ type := "outdated"
           package := "axios"
           severity := none
           current := some "1.0.0"
           patched := none
           wanted := some "1.2.4"
           latest := some "2.0.0"
           reason := "Outdated package (current: 1.0.0, latest: 2.0.0)" }]
    ∧ (applyUpdates false true "unit3" (some outdatedPkg)
        (buildUpdates SECURITY_CONFIG 0 "interactive" [] [("axios", outdatedInfoSample)])).2.1
      = some { dependencies := some [("axios", "^2.0.0")], devDependencies := none }
    ∧ ("^2.0.0" : String) ≠ "1.2.4" := by
  refine ⟨rfl, rfl, by decide⟩

/-- C3 counterexample: a conflicting merge attempt returns failure but
leaves the working tree changed (conflicted) and a merge in progress —
the source never runs a merge abort, contradicting the claim that the
working tree is unchanged after the attempt. -/
theorem merge_conflict_mutates_tree :
    (mergeAikidoBranch conflictWorld "y" "y" "y" "aikido/fix" initialGit).1 = false
    ∧ (mergeAikidoBranch conflictWorld "y" "y" "y" "aikido/fix" initialGit).2.workingTree
        ≠ initialGit.workingTree
    ∧ (mergeAikidoBranch conflictWorld "y" "y" "y" "aikido/fix" initialGit).2.mergeInProgress
        = true := by
  refine ⟨rfl, by decide, rfl⟩

/-- C4 counterexample: a security entry whose target version equals the
current constraint is still applied — hasChanges is set, the manifest
file is rewritten and npm install runs, contradicting no-op
elimination. -/
theorem noop_entry_still_writes_manifest :
    noopUpdate.patched = some "4.17.21"
    ∧ optLookup "lodash" noopPkg.dependencies = some "4.17.21"
    ∧ (applyUpdates false true "unit" (some noopPkg) [noopUpdate]).2.2
        = [Effect.fileWrite "unit/package.json", Effect.npmInstall "unit"] := by
  refine ⟨rfl, rfl, rfl⟩

/-- C6 counterexample: a branch name containing both the scanner-bot and
the dependency-bot markers is listed under both categories by
listSecurityBranches, so it does not receive exactly one source
classification. -/
theorem branch_both_markers_double_classified :
    (categorizeBranches ["dependabot/aikido-manifest-bump"]).1
      = ["dependabot/aikido-manifest-bump"]
    ∧ (categorizeBranches ["dependabot/aikido-manifest-bump"]).2.1
      = ["dependabot/aikido-manifest-bump"]
    ∧ (categorizeBranches ["dependabot/aikido-manifest-bump"]).2.2 = [] := by
  refine ⟨by decide, by decide, by decide⟩

/-- C10: a vulnerability whose effective severity (absent fields default
to unknown) is outside the four known levels gets the low SLA ceiling of
365 days, is never auto-eligible under the default allow-list, and
contributes no severity weight to the score — only the 10-point stale
deduction can apply. -/
theorem unknown_severity_analysis (now : Int) (v : VulnData)
    (h : jsOr v.severity "unknown" ∉ (["critical", "high", "moderate", "low"] : List String)) :
    (analyzeVulnerability SECURITY_CONFIG now v.id v).maxAge = 365
    ∧ (analyzeVulnerability SECURITY_CONFIG now v.id v).shouldAutoUpdate = false
    ∧ vulnDeduction now v
        = (if (analyzeVulnerability SECURITY_CONFIG now v.id v).isStale then 10 else 0) := by
  simp only [List.mem_cons, List.not_mem_nil, or_false, not_or] at h
  obtain ⟨h1, h2, h3, h4⟩ := h
  have hsev : (analyzeVulnerability SECURITY_CONFIG now v.id v).severity
      = jsOr v.severity "unknown" := rfl
  have hmax : maxAgeFor (jsOr v.severity "unknown") = none := by
    unfold maxAgeFor
    rw [if_neg h1, if_neg h2, if_neg h3, if_neg h4]
  have hsw : severityWeight (jsOr v.severity "unknown") = 0 := by
    unfold severityWeight
    rw [if_neg h1, if_neg h2, if_neg h3, if_neg h4]
  refine ⟨?_, ?_, ?_⟩
  · show (maxAgeFor (jsOr v.severity "unknown")).getD 365 = 365
    rw [hmax]
    rfl
  · simp only [analyzeVulnerability]
    simp [SECURITY_CONFIG, h1, h2]
  · unfold vulnDeduction
    rw [hsev, hsw, zero_add]

/-- C10 witness: a concrete vulnerability with severity weird. -/
theorem unknown_severity_analysis_witness :
    (jsOr unknownVuln.severity "unknown"
        ∉ (["critical", "high", "moderate", "low"] : List String))
    ∧ ((analyzeVulnerability SECURITY_CONFIG 86400001 unknownVuln.id unknownVuln).maxAge = 365
      ∧ (analyzeVulnerability SECURITY_CONFIG 86400001 unknownVuln.id unknownVuln).shouldAutoUpdate
          = false
      ∧ vulnDeduction 86400001 unknownVuln
          = (if (analyzeVulnerability SECURITY_CONFIG 86400001 unknownVuln.id
                unknownVuln).isStale then 10 else 0)) :=
  ⟨by decide, unknown_severity_analysis 86400001 unknownVuln (by decide)⟩

/-- C7: with dry-run enabled no manifest write and no install ever
happens: the effect trace of applyUpdates holds no filesystem-mutating
effect for any input, and writePackageJson only records the intended
write. -/
theorem dry_run_no_writes_no_installs (installOk : Bool) (dir : String)
    (pkg : Option PkgContent) (updates : List Update) :
    ((applyUpdates true installOk dir pkg updates).2.2).filter mutatesSystem = []
    ∧ ∀ path, writePackageJson true path = (true, [Effect.dryWouldWrite path]) := by
  constructor
  · by_cases h0 : updates.length = 0
    · simp [applyUpdates, h0]
    · cases pkg with
      | none => simp [applyUpdates, h0]
      | some p =>
        by_cases hc : (updates.foldl (fun st u => applyOne u st) (p, false)).2
        · simp [applyUpdates, h0, hc, writePackageJson, mutatesSystem]
        · simp [applyUpdates, h0, hc, writePackageJson, mutatesSystem]
  · intro path
    rfl

/-- C3 amended: on a conflicting merge, mergeBranch reports failure
(returns false) but does not abort the merge — the working tree holds the
conflicted state and the merge stays in progress, left to the operator to
resolve manually. -/
theorem merge_conflict_reports_failure_leaves_conflict (w : GitWorld)
    (ansSwitch ansDelete branchName : String) (st : GitState)
    (t : List (String × String))
    (hm : w.mergeOutcome = MergeOutcome.conflict t)
    (hb : st.currentBranch = "main") :
    mergeAikidoBranch w ansSwitch "y" ansDelete branchName st
      = (false, { st with workingTree := t, mergeInProgress := true }) := by
  simp [mergeAikidoBranch, hb, hm]

/-- C3 witness: the amended behaviour at the concrete conflicting
scenario. -/
theorem merge_conflict_reports_failure_witness :
    conflictWorld.mergeOutcome
        = MergeOutcome.conflict [("package.json", "conflict-markers")]
    ∧ initialGit.currentBranch = "main"
    ∧ mergeAikidoBranch conflictWorld "n" "y" "n" "aikido/fix-two" initialGit
      = (false, { initialGit with
          workingTree := [("package.json", "conflict-markers")]
          mergeInProgress := true }) :=
  ⟨rfl, rfl,
    merge_conflict_reports_failure_leaves_conflict conflictWorld "n" "n" "aikido/fix-two"
      initialGit [("package.json", "conflict-markers")] rfl rfl⟩

/-- C6 amended: classification is deterministic by name alone in both
implementations; the interactive manager classifies with scanner-bot over
dependency-bot precedence (exactly one type per name), while
listSecurityBranches categorizes by independent substring tests, so a
name containing both markers appears in both categories; the example
names map as claimed. -/
theorem branch_classification_characterization :
    (∀ name,
      (branchType name = "aikido" ↔ jsIncludes name "aikido/" = true)
      ∧ (branchType name = "dependabot"
          ↔ (jsIncludes name "aikido/" = false ∧ jsIncludes name "dependabot/" = true))
      ∧ (branchType name = "security"
          ↔ (jsIncludes name "aikido/" = false ∧ jsIncludes name "dependabot/" = false)))
    ∧ (∀ (bs : List String) (b : String),
      (b ∈ (categorizeBranches bs).1 ↔ (b ∈ bs ∧ jsIncludes b "aikido" = true))
      ∧ (b ∈ (categorizeBranches bs).2.1 ↔ (b ∈ bs ∧ jsIncludes b "dependabot" = true))
      ∧ (b ∈ (categorizeBranches bs).2.2
          ↔ (b ∈ bs ∧ jsIncludes b "aikido" = false ∧ jsIncludes b "dependabot" = false)))
    ∧ branchType "aikido/fix-lodash" = "aikido"
    ∧ branchType "dependabot/npm_and_yarn/axios-1.2.3" = "dependabot"
    ∧ branchType "security/manual-patch" = "security" := by
  have dab : ("aikido" : String) ≠ "dependabot" := by decide
  have das : ("aikido" : String) ≠ "security" := by decide
  have dba : ("dependabot" : String) ≠ "aikido" := by decide
  have dbs : ("dependabot" : String) ≠ "security" := by decide
  have dsa : ("security" : String) ≠ "aikido" := by decide
  have dsb : ("security" : String) ≠ "dependabot" := by decide
  refine ⟨?_, ?_, by decide, by decide, by decide⟩
  · intro name
    cases h1 : jsIncludes name "aikido/" with
    | true => simp [branchType, h1, dab, das]
    | false =>
      cases h2 : jsIncludes name "dependabot/" with
      | true => simp [branchType, h1, h2, dba, dbs]
      | false => simp [branchType, h1, h2, dsa, dsb]
  · intro bs b
    refine ⟨?_, ?_, ?_⟩ <;>
      simp [categorizeBranches, List.mem_filter, Bool.not_eq_true', and_assoc]

/-- C4 amended: applyUpdates performs no no-op elimination — a security
entry whose target version equals the current constraint is still
applied: the dependency map is left pointwise unchanged because the same
value is re-assigned, but hasChanges is set, so the manifest file is
rewritten and the reinstall step runs. -/
theorem target_equals_current_rewrites (installOk : Bool) (dir : String)
    (p : PkgContent) (u : Update) (t : String)
    (htype : u.type = "security") (hpat : u.patched = some t)
    (ht1 : t ≠ "") (ht2 : t ≠ "none")
    (hdep : optLookup u.package p.dependencies = some t)
    (hdev : optLookup u.package p.devDependencies = none) :
    applyUpdates false installOk dir (some p) [u]
      = (installOk, some p,
          [Effect.fileWrite (dir ++ "/package.json"), Effect.npmInstall dir]) := by
  obtain ⟨m, hp⟩ : ∃ m, p.dependencies = some m := by
    cases hpd : p.dependencies with
    | none => rw [hpd] at hdep; simp [optLookup] at hdep
    | some m => exact ⟨m, rfl⟩
  have hlm : assocLookup u.package m = some t := by
    rw [hp] at hdep
    simpa [optLookup] using hdep
  have hc1 : (u.type == "security" && jsTruthy u.patched
      && !(u.patched == some "none")) = true := by
    rw [htype, hpat]
    simp [jsTruthy, ht1, ht2]
  have hd1 : depsHasTruthy p.dependencies u.package = true := by
    rw [hp]
    simp [depsHasTruthy, hlm, jsTruthy, ht1]
  have hd2 : depsHasTruthy p.devDependencies u.package = false := by
    cases hq : p.devDependencies with
    | none => rfl
    | some m' =>
      rw [hq] at hdev
      simp only [optLookup] at hdev
      simp [depsHasTruthy, hdev, jsTruthy]
  have hset : setDep p.dependencies u.package (u.patched.getD "") = p.dependencies := by
    rw [hpat, hp]
    simp [setDep, assocSet_lookup_self u.package t m hlm]
  have happ : applyOne u (p, false) = (p, true) := by
    unfold applyOne
    simp only [hc1, if_true]
    simp only [hd1, if_true, hset]
    have heta : ({ p with dependencies := p.dependencies } : PkgContent) = p := rfl
    rw [heta]
    simp [hd2]
  cases installOk <;> simp [applyUpdates, happ, writePackageJson]

/-- C4 witness: the amended behaviour at the concrete no-op entry. -/
theorem target_equals_current_rewrites_witness :
    noopUpdate.type = "security"
    ∧ noopUpdate.patched = some "4.17.21"
    ∧ ("4.17.21" : String) ≠ ""
    ∧ ("4.17.21" : String) ≠ "none"
    ∧ optLookup noopUpdate.package noopPkg.dependencies = some "4.17.21"
    ∧ optLookup noopUpdate.package noopPkg.devDependencies = none
    ∧ applyUpdates false true "unit2" (some noopPkg) [noopUpdate]
      = (true, some noopPkg,
          [Effect.fileWrite "unit2/package.json", Effect.npmInstall "unit2"]) :=
  ⟨rfl, rfl, by decide, by decide, rfl, rfl,
    target_equals_current_rewrites true "unit2" noopPkg noopUpdate "4.17.21"
      rfl rfl (by decide) (by decide) rfl rfl⟩

/-- C5: under the Auto policy every plan entry is a security entry whose
severity is in the default allow-list (critical or high) and whose
package is not excluded; no outdated entry is ever in the auto plan, and
the constraint of any excluded package is unchanged by the auto update
flow in both dependency maps. -/
theorem auto_policy_safety (now : Int) (vulns : List (String × VulnData))
    (outdated : List (String × OutdatedInfo)) (dry installOk : Bool) (dir : String)
    (p : PkgContent) (choice : String) (answers : List String)
    (excl : List String) (q : String) (hq : q ∈ excl) :
    ((buildUpdates ⟨["critical", "high"], excl⟩ now "auto" vulns outdated).all
      (fun u => u.type == "security"
        && (u.severity == some "critical" || u.severity == some "high")
        && !(excl.contains u.package)) = true)
    ∧ ∃ p', (updateDependencies ⟨["critical", "high"], excl⟩ now dry installOk dir
          (some p) vulns outdated "auto" choice answers).2.1 = some p'
        ∧ optLookup q p'.dependencies = optLookup q p.dependencies
        ∧ optLookup q p'.devDependencies = optLookup q p.devDependencies := by
  have hall : ∀ u ∈ buildUpdates ⟨["critical", "high"], excl⟩ now "auto" vulns outdated,
      u.type = "security"
      ∧ (u.severity = some "critical" ∨ u.severity = some "high")
      ∧ excl.contains u.package = false := by
    intro u hu
    simp only [buildUpdates, List.mem_append, List.mem_filterMap] at hu
    rcases hu with ⟨vp, hvp, he⟩ | ⟨op, hop, he⟩
    · cases hsau : (analyzeVulnerability ⟨["critical", "high"], excl⟩ now
          vp.1 vp.2).shouldAutoUpdate with
      | false => simp [hsau] at he
      | true =>
        cases hex : excl.contains (analyzeVulnerability ⟨["critical", "high"], excl⟩
            now vp.1 vp.2).module with
        | true =>
          have hmm := List.elem_iff.mp hex
          simp [hsau, hmm] at he
        | false =>
          simp only [hsau, hex, Bool.not_true, Bool.and_false, Bool.false_eq_true,
            if_false, if_neg, Bool.not_eq_true] at he
          injection he with he
          subst he
          refine ⟨rfl, ?_, ?_⟩
          · simp only [analyzeVulnerability] at hsau ⊢
            have hmem := List.elem_iff.mp hsau
            rcases (by simpa using hmem : jsOr vp.2.severity "unknown" = "critical"
                ∨ jsOr vp.2.severity "unknown" = "high") with hs | hs <;> simp [hs]
          · exact hex
    · simp at he
  constructor
  · rw [List.all_eq_true]
    intro u hu
    obtain ⟨ht, hs, hpk⟩ := hall u hu
    rw [ht, hpk]
    rcases hs with hs | hs <;> rw [hs] <;> decide
  · have hne : ∀ x ∈ (buildUpdates ⟨["critical", "high"], excl⟩ now "auto" vulns
        outdated).filter (fun u => u.type == "security"), x.package ≠ q := by
      intro x hx heq
      obtain ⟨hxm, -⟩ := List.mem_filter.mp hx
      obtain ⟨-, -, hpk⟩ := hall x hxm
      rw [heq] at hpk
      have hmem : excl.contains q = true := List.elem_iff.mpr hq
      rw [hpk] at hmem
      exact Bool.noConfusion hmem
    by_cases h0 : (buildUpdates ⟨["critical", "high"], excl⟩ now "auto" vulns
        outdated).length = 0
    · refine ⟨p, ?_, rfl, rfl⟩
      simp [updateDependencies, h0]
    · obtain ⟨p', hp', hd, hv⟩ := applyUpdates_frame dry installOk dir p
        ((buildUpdates ⟨["critical", "high"], excl⟩ now "auto" vulns outdated).filter
          (fun u => u.type == "security")) q hne
      refine ⟨p', ?_, hd, hv⟩
      simpa [updateDependencies, h0] using hp'

/-- C5 witness: the auto-policy guarantees at a concrete scan with one
vulnerability, one outdated package, and an excluded package present in
the manifest. -/
theorem auto_policy_safety_witness :
    ("left-pad" : String) ∈ (["left-pad"] : List String)
    ∧ (((buildUpdates ⟨["critical", "high"], ["left-pad"]⟩ 0 "auto"
          [("CVE-X", sampleVuln)] [("axios", outdatedInfoSample)]).all
        (fun u => u.type == "security"
          && (u.severity == some "critical" || u.severity == some "high")
          && !((["left-pad"] : List String).contains u.package)) = true)
      ∧ ∃ p', (updateDependencies ⟨["critical", "high"], ["left-pad"]⟩ 0 false true
            "unitW" (some noopPkg) [("CVE-X", sampleVuln)]
            [("axios", outdatedInfoSample)] "auto" "a" []).2.1 = some p'
          ∧ optLookup "left-pad" p'.dependencies
              = optLookup "left-pad" noopPkg.dependencies
          ∧ optLookup "left-pad" p'.devDependencies
              = optLookup "left-pad" noopPkg.devDependencies) :=
  ⟨by decide,
    auto_policy_safety 0 [("CVE-X", sampleVuln)] [("axios", outdatedInfoSample)]
      false true "unitW" noopPkg "a" [] ["left-pad"] "left-pad" (by decide)⟩

end Glossia
